import Mathlib

/-!
Verification of the nohuman pipeline (src/src/main.rs) against its
natural-language specification.

The `main` function of the program is shallowly embedded as the pure
function `NoHuman.run` below.  Filesystem paths are modelled as `List Char`;
the Rust `std::path::Path` operations used by the program (`extension`,
`file_stem`, `with_extension`, `parent`, `join`) are reimplemented
faithfully for ordinary relative/absolute paths (the program only ever
feeds them user-supplied file paths).

External collaborators that live in the library crate (whose source is not
part of this repository snapshot: `read_with_niffler`, `write_output`,
`parse_kraken_stats`, `write_stats`, `validate_db_directory`,
`CommandRunner::is_executable`, `download_database`) and the operating
system (tempfile allocation, process spawning, exit codes) are modelled as
an environment `NoHuman.Env` of oracle values; `run` consumes those results
exactly where `main` consumes the corresponding call results.  The visible
actions of a run (temporary-file creation, the classifier invocation and
its argument vector, stats/log/output writes, workspace creation and
cleanup) are recorded in order as a list of `NoHuman.Effect`s.
-/

namespace NoHuman

/-- Paths are modelled as lists of characters. -/
abbrev Path := List Char

/-- The file-name component of a path: the part after the last slash
(Rust `Path::file_name` for ordinary file paths). -/
def fileName (p : Path) : Path :=
  (p.reverse.takeWhile (fun c => c ≠ '/')).reverse

/-- The directory part of a path: everything before the last slash, empty
when there is none (Rust `Path::parent` for ordinary file paths). -/
def parentDir (p : Path) : Path :=
  match p.reverse.dropWhile (fun c => c ≠ '/') with
  | [] => []
  | _ :: r => r.reverse

/-- Rust `Path::join` restricted to a relative file name: an empty
directory behaves as `Path::new("")`, whose join is the file name itself. -/
def joinPath (d f : Path) : Path :=
  if d = [] then f else d ++ '/' :: f

/-- Split a file name into (stem, optional extension) following Rust
semantics: the extension is the part after the last dot, except that a dot
in first position (hidden files) does not start an extension. -/
def splitName (f : Path) : Path × Option Path :=
  match f.reverse.dropWhile (fun c => c ≠ '.') with
  | [] => (f, none)
  | _ :: stemRev =>
    if stemRev = [] then (f, none)
    else (stemRev.reverse, some ((f.reverse.takeWhile (fun c => c ≠ '.')).reverse))

/-- Rust `Path::extension`. -/
def pathExt (p : Path) : Option Path := (splitName (fileName p)).2

/-- `extension().unwrap_or_default()` as used by `main` (line 252): the
extension, or the empty string when there is none. -/
def pathExtD (p : Path) : Path := (pathExt p).getD []

/-- Rust `Path::file_stem`. -/
def pathStem (p : Path) : Path := (splitName (fileName p)).1

/-- Rust `with_extension("")`: the path with its extension (and the
separating dot) removed. -/
def withExtEmpty (p : Path) : Path := joinPath (parentDir p) (pathStem p)

/-- The compression-format classification of `main` lines 258-280. -/
inductive CompressionFormat where
  | noCompression
  | nativeToClassifier
  | requiresStaging
deriving DecidableEq

/-- Extensions kraken2 decodes natively (`main` line 259). -/
def nativeExts : List Path := ["gz".data, "bz2".data, "bgz".data]

/-- Extensions that are decompressed before invocation (`main` line 264). -/
def stagedExts : List Path := ["xz".data, "lzma".data, "zst".data, "zstd".data]

/-- The `match ext` of `main` lines 258-280: native extensions and unknown
extensions leave the file unchanged; staged extensions are decompressed. -/
def classifyExt (e : Path) : CompressionFormat :=
  if e ∈ nativeExts then .nativeToClassifier
  else if e ∈ stagedExts then .requiresStaging
  else .noCompression

/-- The input-mapping fold of `main` lines 248-282.  `alloc k` is the path
the tempfile library returns for the k-th staging temporary.  Returns
(kraken input paths, files to decompress, decompression destinations). -/
def planInputsAux (alloc : Nat → Path) (k : Nat) :
    List Path → List Path × List Path × List Path
  | [] => ([], [], [])
  | p :: rest =>
    match classifyExt (pathExtD p) with
    | .requiresStaging =>
      let t := alloc k
      let r := planInputsAux alloc (k + 1) rest
      (t :: r.1, p :: r.2.1, t :: r.2.2)
    | _ =>
      let r := planInputsAux alloc k rest
      (p :: r.1, r.2.1, r.2.2)

/-- The full input plan, starting from the first staging temporary. -/
def planInputs (alloc : Nat → Path) (ins : List Path) :
    List Path × List Path × List Path :=
  planInputsAux alloc 0 ins

/-- The extension list of the single-end default-output branch
(`main` line 432): `gz`, `bz2`, `xz`, `zst`. -/
def singleExts : List Path := ["gz".data, "bz2".data, "xz".data, "zst".data]

/-- The extension list of the paired first-output branch (`main` line 389):
`gz`, `bz2`, `xz`, `lzma`, `zst`, `zstd`. -/
def pairedExts1 : List Path :=
  ["gz".data, "bz2".data, "xz".data, "lzma".data, "zst".data, "zstd".data]

/-- The extension list of the paired second-output branch (`main` line
402): `gz`, `bgz`, `bz2`, `xz`, `lzma`, `zst`, `zstd`. -/
def pairedExts2 : List Path :=
  ["gz".data, "bgz".data, "bz2".data, "xz".data, "lzma".data, "zst".data, "zstd".data]

/-- The default-output computation shared by `main` lines 386-397, 399-410
and 429-440, parameterised by the extension list of the branch. -/
def defaultOutput (exts : List Path) (input : Path) : Path :=
  let parent := parentDir input
  let fname :=
    match pathExt input with
    | some e =>
      if e ∈ exts then
        pathStem (withExtEmpty input) ++ ".nohuman.fq.".data ++ e
      else pathStem input ++ ".nohuman.fq".data
    | none => pathStem input ++ ".nohuman.fq".data
  joinPath parent fname

/-- The stats record assembled by `main` lines 351-379.  The numeric fields
come from `parse_kraken_stats` (library crate); the path and version fields
are overwritten by `main` itself before serialization. -/
structure StatsReport where
  total : Nat
  classified : Nat
  unclassified : Nat
  kraken2Version : Path
  input1 : Path
  input2 : Path
  output1 : Path
  output2 : Path
deriving DecidableEq

/-- The command-line arguments consumed by `main` (the `Args` struct of the
source, minus the logging verbosity flag, which only affects log output). -/
structure Args where
  input : Option (List Path)
  out1 : Option Path
  out2 : Option Path
  check : Bool
  download : Bool
  database : Path
  kraken2Log : Option Path
  threads : Nat
  compressionThreads : Option Nat
  overwrite : Bool
  stats : Option Path

/-- Oracle values for every external call `main` makes, in particular the
results of the library-crate helpers whose source is outside this
repository snapshot and of the operating system.  `exitCode` is the exit
status of the classifier process; `stagingTemp k` and `krakenTemp` are the
paths the tempfile library allocates (in the system temporary directory);
`workspace` is the directory `tempdir_in(current_dir)` creates. -/
structure Env where
  fileExists : Path → Bool
  downloadOk : Bool
  depsOk : Bool
  stagingTemp : Nat → Path
  decompressOk : Bool
  krakenTemp : Path
  dbValid : Option Path
  workspace : Path
  spawnOk : Bool
  exitCode : Nat
  logCreateOk : Bool
  versionOk : Bool
  version : Path
  parseResult : Option StatsReport
  statsWriteOk : Bool
  writeOutputOk : Bool

/-- The externally visible actions of a run, recorded in program order. -/
inductive Effect where
  | tempFile (p : Path)
  | decompress (srcs dsts : List Path) (threads : Nat)
  | workspaceDir (p : Path)
  | invoke (argv : List Path)
  | logWrite (p : Path)
  | versionInvoke
  | statsWrite (p : Path) (s : StatsReport)
  | outputWrite (dst : Path) (threads : Nat)
  | cleanup
deriving DecidableEq

/-- The error taxonomy of `main`: one constructor per `bail!`/`?` exit. -/
inductive PipelineError where
  | outputCollision
  | outputAlreadyExists
  | databaseMissing
  | downloadFailure
  | missingDependencies
  | noInput
  | decompressionFailure
  | invalidDb
  | inputCountExceeded
  | spawnFailure
  | logFailure
  | versionFailure
  | parseFailure
  | statsWriteFailure
  | outputWriteFailure
deriving DecidableEq

/-- A stage outcome: the effects performed so far and the error, if any. -/
abbrev Outcome := List Effect × Option PipelineError

/-- Sequencing with early exit: a failed stage keeps its own effects and
drops the continuation, mirroring `?`/`bail!` early returns. -/
def seqE (eff : List Effect) (er : Option PipelineError) (next : Outcome) : Outcome :=
  match er with
  | some x => (eff, some x)
  | none => (eff ++ next.1, next.2)

/-- `main` lines 164-169: the early collision check, which fires only when
both output paths are supplied explicitly. -/
def explicitCollision (a : Args) : Bool :=
  match a.out1, a.out2 with
  | some o1, some o2 => o1 = o2
  | _, _ => false

/-- `main` lines 171-182: an explicitly supplied output that already exists
blocks the run unless `--overwrite` is given; an absent option never does. -/
def outExistsBlocked (e : Env) (a : Args) (o : Option Path) : Bool :=
  match o with
  | some p => e.fileExists p && !a.overwrite
  | none => false

/-- `main` lines 305-332: the classifier argument vector (argv after the
program name), built from thread count, validated database path, raw
output temporary, paired flag and unclassified-output template, followed by
the per-file input paths. -/
def buildKrakenCmd (threads : Nat) (db tmp : Path) (paired : Bool)
    (template : Path) (inputs : List Path) : List Path :=
  "--threads".data :: (Nat.repr threads).data :: "--db".data :: db ::
    "--output".data :: tmp ::
    ((if paired then ["--paired".data] else []) ++
      ("--unclassified-out".data :: template :: inputs))

/-- `main` lines 324-329: the unclassified-output template inside the
workspace directory; the paired template carries the `#` placeholder. -/
def unclassifiedTemplate (ws : Path) (paired : Bool) : Path :=
  joinPath ws (if paired then "kraken_out#.fq".data else "kraken_out.fq".data)

/-- `main` lines 344-349: write the captured classifier stderr to the log
destination when one was configured. -/
def logStage (a : Args) (e : Env) : Outcome :=
  match a.kraken2Log with
  | none => ([], none)
  | some p => if e.logCreateOk then ([Effect.logWrite p], none) else ([], some .logFailure)

/-- The placeholder recorded as `output1` when no explicit first output was
supplied (`main` line 374). -/
def outPlaceholder1 : Path := "output_1.fq".data

/-- The placeholder recorded as `output2` when no explicit second output
was supplied (`main` line 377). -/
def outPlaceholder2 : Path := "output_2.fq".data

/-- `main` lines 351-381: when a stats file is requested, run
`kraken2 --version`, parse the captured stderr, overwrite the version and
path fields, and serialize.  The version-string extraction of lines
360-368 is abstracted into the oracle `e.version`; no claim concerns it. -/
def statsStage (a : Args) (e : Env) (ins : List Path) : Outcome :=
  match a.stats with
  | none => ([], none)
  | some sp =>
    if e.versionOk then
      match e.parseResult with
      | none => ([Effect.versionInvoke], some .parseFailure)
      | some st0 =>
        let base := { st0 with
          kraken2Version := e.version
          input1 := ins.headD []
          output1 := a.out1.getD outPlaceholder1 }
        let report :=
          if ins.length = 2 then
            { base with
              input2 := (ins[1]?).getD []
              output2 := a.out2.getD outPlaceholder2 }
          else base
        if e.statsWriteOk then
          ([Effect.versionInvoke, Effect.statsWrite sp report], none)
        else ([Effect.versionInvoke, Effect.statsWrite sp report], some .statsWriteFailure)
    else ([Effect.versionInvoke], some .versionFailure)

/-- `main` lines 383-454: resolve the final destination of each output
(explicit path or computed default) and hand the classifier result files to
`write_output` with the output compression thread count.

Modelled from the spec: `write_output` itself lives in the library crate,
which is not part of this repository snapshot; per spec section 4.5 it moves
or recompresses each temp result into its destination without checking for
a pre-existing file (overwriting unconditionally), and a failure on either
file is fatal.  It is therefore modelled as one `outputWrite` effect per
destination whose success is the oracle `e.writeOutputOk`, independent of
`e.fileExists`. -/
def outputStage (a : Args) (e : Env) (ins : List Path) : Outcome :=
  let ct := a.compressionThreads.getD a.threads
  let er : Option PipelineError := if e.writeOutputOk then none else some .outputWriteFailure
  if ins.length = 2 then
    let o1 := a.out1.getD (defaultOutput pairedExts1 (ins.headD []))
    let o2 := a.out2.getD (defaultOutput pairedExts2 ((ins[1]?).getD []))
    ([Effect.outputWrite o1 ct, Effect.outputWrite o2 ct], er)
  else
    let o1 := a.out1.getD (defaultOutput singleExts (ins.headD []))
    ([Effect.outputWrite o1 ct], er)

/-- `main` lines 243-463, from input parsing to the end: stage the inputs,
decompress where needed (`read_with_niffler` is modelled from the spec,
section 4.2: full decompression of each listed source into its listed
destination, fatal on corrupt input; here one `decompress` effect whose
success is the oracle `e.decompressOk`), create the raw-output temporary,
validate the database, reject more than two inputs, create the workspace,
invoke the classifier, then log/stats/output stages and cleanup. -/
def pipelineStage (a : Args) (e : Env) (ins : List Path) : Outcome :=
  let plan := planInputs e.stagingTemp ins
  let decompPart : Outcome :=
    if plan.2.1 = [] then ([], none)
    else
      let ct0 := a.compressionThreads.getD 1
      let ct := if ct0 > 1 then ct0 else 1
      ([Effect.decompress plan.2.1 plan.2.2 ct],
        if e.decompressOk then none else some .decompressionFailure)
  seqE (plan.2.2.map Effect.tempFile) none (
  seqE decompPart.1 decompPart.2 (
  seqE [Effect.tempFile e.krakenTemp] none (
  match e.dbValid with
  | none => ([], some .invalidDb)
  | some db =>
    if ins.length > 2 then ([], some .inputCountExceeded)
    else
      let paired := decide (ins.length = 2)
      let argv := buildKrakenCmd a.threads db e.krakenTemp paired
        (unclassifiedTemplate e.workspace paired) plan.1
      seqE [Effect.workspaceDir e.workspace] none (
      seqE [Effect.invoke argv] (if e.spawnOk then none else some .spawnFailure) (
      seqE (logStage a e).1 (logStage a e).2 (
      seqE (statsStage a e ins).1 (statsStage a e ins).2 (
      seqE (outputStage a e ins).1 (outputStage a e ins).2 (
      ([Effect.cleanup], none)))))))))

/-- The whole of `main` from line 164 on (argument parsing and logger
initialization excluded): early checks in source order, the download and
dependency-check paths, then the pipeline proper.  `(effects, none)` is a
successful run; `(effects, some er)` aborted with `er` after `effects`. -/
def run (a : Args) (e : Env) : Outcome :=
  if explicitCollision a then ([], some .outputCollision)
  else if outExistsBlocked e a a.out1 then ([], some .outputAlreadyExists)
  else if outExistsBlocked e a a.out2 then ([], some .outputAlreadyExists)
  else if !e.fileExists a.database && !a.download && !a.check then
    ([], some .databaseMissing)
  else if a.download && !e.downloadOk then ([], some .downloadFailure)
  else if a.download && a.input.isNone then ([], none)
  else if !e.depsOk then ([], some .missingDependencies)
  else if a.check then ([], none)
  else
    match a.input with
    | none => ([], some .noInput)
    | some ins => pipelineStage a e ins

/-! Helper observers on effect traces, used to state the claims. -/

/-- Whether an effect is a classifier invocation. -/
def Effect.isInvoke : Effect → Bool
  | .invoke _ => true
  | _ => false

/-- Whether an effect is a stats-file write. -/
def Effect.isStatsWrite : Effect → Bool
  | .statsWrite _ _ => true
  | _ => false

/-- Whether an effect is a final output write. -/
def Effect.isOutputWrite : Effect → Bool
  | .outputWrite _ _ => true
  | _ => false

/-- The destinations of the final output writes, in order. -/
def outputDests (l : List Effect) : List Path :=
  l.filterMap fun ef => match ef with
    | .outputWrite d _ => some d
    | _ => none

/-- The compression thread counts passed to the output writer, in order. -/
def outputThreadCounts (l : List Effect) : List Nat :=
  l.filterMap fun ef => match ef with
    | .outputWrite _ t => some t
    | _ => none

/-- The thread counts passed to the staging decompressor, in order. -/
def decompThreadCounts (l : List Effect) : List Nat :=
  l.filterMap fun ef => match ef with
    | .decompress _ _ t => some t
    | _ => none

/-- The `output1` fields of the serialized stats reports, in order. -/
def statsOutput1Fields (l : List Effect) : List Path :=
  l.filterMap fun ef => match ef with
    | .statsWrite _ s => some s.output1
    | _ => none

/-- Whether `p` is a path strictly inside the directory `dir`. -/
def underDir (dir p : Path) : Bool :=
  (dir ++ ['/']).isPrefixOf p

/-! Named concrete paths used by the counterexample and witness runs. -/

/-- The path `stats.json`. -/
def statsJsonPath : Path := "stats.json".data

/-- The path `sample.fq`. -/
def sampleFqPath : Path := "sample.fq".data

/-- The path `sample.fq.bgz`. -/
def sampleFqBgzPath : Path := "sample.fq.bgz".data

/-- The path `sample.fq.zst`. -/
def sampleFqZstPath : Path := "sample.fq.zst".data

/-- The path `sample.nohuman.fq`. -/
def sampleNohumanFqPath : Path := "sample.nohuman.fq".data

/-- The path `sample.fq.nohuman.fq`. -/
def sampleFqNohumanFqPath : Path := "sample.fq.nohuman.fq".data

/-- The path `sample.nohuman.fq.bgz`, the default destination claimed by
the specification for a single-end input `sample.fq.bgz`. -/
def sampleNohumanFqBgzPath : Path := "sample.nohuman.fq.bgz".data

/-- The paths `a.fq`, `b.fq`, `c.fq` of a three-input run. -/
def threeInputs : List Path := ["a.fq".data, "b.fq".data, "c.fq".data]

/-- The path `out.fq`, used as an explicitly supplied output. -/
def outFqPath : Path := "out.fq".data

/-- The database directory path `db`. -/
def dbPath : Path := "db".data

/-- The bare stem `sample`. -/
def samplePath : Path := "sample".data

/-- The extension `gz`. -/
def gzExt : Path := "gz".data

/-- The extension `bgz`. -/
def bgzExt : Path := "bgz".data

/-- The staging temporary `/tmp/staged0.fq`, standing for a path the
tempfile library allocates in the system temporary directory. -/
def stagedTmpPath : Path := "/tmp/staged0.fq".data

/-- The raw classifier output temporary `/tmp/krakentmp`, allocated by
`NamedTempFile::new` in the system temporary directory. -/
def krakenTmpPath : Path := "/tmp/krakentmp".data

/-- The workspace directory `nohumanWXYZ` created in the current working
directory. -/
def workspacePath : Path := "nohumanWXYZ".data

/-! Concrete fixtures for counterexamples and witnesses. -/

/-- A parse result for the stats path, standing in for a successfully
parsed classifier report. -/
def sampleParsed : StatsReport :=
  { total := 12345, classified := 12000, unclassified := 345,
    kraken2Version := [], input1 := [], input2 := [], output1 := [], output2 := [] }

/-- Arguments of a plain single-end run: one uncompressed input, every
option left at its default. -/
def baseArgs : Args :=
  { input := some [sampleFqPath]
    out1 := none
    out2 := none
    check := false
    download := false
    database := dbPath
    kraken2Log := none
    threads := 1
    compressionThreads := none
    overwrite := false
    stats := none }

/-- A benign environment: every dependency present, every external call
succeeding, classifier exiting 0, temporaries in the system temp directory
and the workspace in the current directory. -/
def baseEnv : Env :=
  { fileExists := fun _ => true
    downloadOk := true
    depsOk := true
    stagingTemp := fun _ => stagedTmpPath
    decompressOk := true
    krakenTemp := krakenTmpPath
    dbValid := some dbPath
    workspace := workspacePath
    spawnOk := true
    exitCode := 0
    logCreateOk := true
    versionOk := true
    version := "2.1.3".data
    parseResult := some sampleParsed
    statsWriteOk := true
    writeOutputOk := true }

/-! Lemmas about the path primitives. -/

theorem fileName_of_no_slash {f : Path} (h : '/' ∉ f) : fileName f = f := by
  unfold fileName
  rw [List.takeWhile_eq_self_iff.mpr, List.reverse_reverse]
  intro x hx
  have hxf : x ∈ f := List.mem_reverse.mp hx
  simp only [ne_eq, decide_eq_true_eq]
  exact fun hEq => h (hEq ▸ hxf)

theorem parentDir_of_no_slash {f : Path} (h : '/' ∉ f) : parentDir f = [] := by
  have hd : f.reverse.dropWhile (fun c => c ≠ '/') = [] := by
    rw [List.dropWhile_eq_nil_iff]
    intro x hx
    have hxf : x ∈ f := List.mem_reverse.mp hx
    simp only [ne_eq, decide_eq_true_eq]
    exact fun hEq => h (hEq ▸ hxf)
  unfold parentDir
  rw [hd]

theorem splitName_append_dot {m e : Path} (hm : m ≠ []) (he : '.' ∉ e) :
    splitName (m ++ '.' :: e) = (m, some e) := by
  have hrev : (m ++ '.' :: e).reverse = e.reverse ++ '.' :: m.reverse := by
    simp
  have hall : ∀ x ∈ e.reverse, decide (x ≠ '.') = true := by
    intro x hx
    have hxe : x ∈ e := List.mem_reverse.mp hx
    simp only [decide_eq_true_eq, ne_eq]
    exact fun hEq => he (hEq ▸ hxe)
  have hdrop : (m ++ '.' :: e).reverse.dropWhile (fun c => c ≠ '.') = '.' :: m.reverse := by
    rw [hrev, List.dropWhile_append_of_pos hall]
    rw [List.dropWhile_cons_of_neg (by simp)]
  have htake : (m ++ '.' :: e).reverse.takeWhile (fun c => c ≠ '.') = e.reverse := by
    rw [hrev, List.takeWhile_append_of_pos hall]
    rw [List.takeWhile_cons_of_neg (by simp), List.append_nil]
  unfold splitName
  rw [hdrop]
  dsimp only
  rw [if_neg (by simp [hm]), htake, List.reverse_reverse, List.reverse_reverse]

theorem splitName_no_dot {m : Path} (h : '.' ∉ m) : splitName m = (m, none) := by
  have hd : m.reverse.dropWhile (fun c => c ≠ '.') = [] := by
    rw [List.dropWhile_eq_nil_iff]
    intro x hx
    have hxm : x ∈ m := List.mem_reverse.mp hx
    simp only [ne_eq, decide_eq_true_eq]
    exact fun hEq => h (hEq ▸ hxm)
  unfold splitName
  rw [hd]

theorem char_not_mem_append {c : Char} {l₁ l₂ : Path} (h1 : c ∉ l₁) (h2 : c ∉ l₂) :
    c ∉ l₁ ++ l₂ := by
  intro h
  rcases List.mem_append.mp h with h' | h'
  exacts [h1 h', h2 h']

theorem joinPath_nil (f : Path) : joinPath [] f = f := by
  simp [joinPath]

theorem pathStem_stem_fq {s : Path} (hs : s ≠ []) (hss : '/' ∉ s) :
    pathStem (s ++ '.' :: ['f', 'q']) = s := by
  unfold pathStem
  rw [fileName_of_no_slash (char_not_mem_append hss (by decide)),
    splitName_append_dot hs (by decide)]

/-- Default naming for an input `<s>.fq.<e>` whose compression extension
`e` is in the branch's recognized list: the result is `<s>.nohuman.fq.<e>`. -/
theorem defaultOutput_recognized {L : List Path} {s e : Path}
    (hs : s ≠ []) (hss : '/' ∉ s) (hde : '.' ∉ e) (hse : '/' ∉ e)
    (hL : e ∈ L) :
    defaultOutput L (s ++ ".fq.".data ++ e) = s ++ ".nohuman.fq.".data ++ e := by
  have hdecomp : s ++ ".fq.".data ++ e = (s ++ ['.', 'f', 'q']) ++ '.' :: e := by
    simp [show (".fq.".data : Path) = ['.', 'f', 'q', '.'] from rfl]
  have hm : s ++ ['.', 'f', 'q'] ≠ [] := by simp
  have hnos : '/' ∉ (s ++ ['.', 'f', 'q']) ++ '.' :: e := by
    apply char_not_mem_append (char_not_mem_append hss (by decide))
    intro h
    rcases List.mem_cons.mp h with h' | h'
    · exact absurd h' (by decide)
    · exact hse h'
  have hfile : fileName ((s ++ ['.', 'f', 'q']) ++ '.' :: e) = (s ++ ['.', 'f', 'q']) ++ '.' :: e :=
    fileName_of_no_slash hnos
  have hext : pathExt ((s ++ ['.', 'f', 'q']) ++ '.' :: e) = some e := by
    unfold pathExt
    rw [hfile, splitName_append_dot hm hde]
  have hstem : pathStem ((s ++ ['.', 'f', 'q']) ++ '.' :: e) = s ++ ['.', 'f', 'q'] := by
    unfold pathStem
    rw [hfile, splitName_append_dot hm hde]
  have hpar : parentDir ((s ++ ['.', 'f', 'q']) ++ '.' :: e) = [] :=
    parentDir_of_no_slash hnos
  rw [hdecomp]
  unfold defaultOutput withExtEmpty
  rw [hext]
  dsimp only
  rw [if_pos hL, hpar, hstem, joinPath_nil, joinPath_nil,
    pathStem_stem_fq hs hss]

/-- Default naming for an input `<s>.fq.<e>` whose compression extension
`e` is not in the branch's recognized list: the compression extension is
kept inside the stem and the result is `<s>.fq.nohuman.fq`. -/
theorem defaultOutput_unrecognized {L : List Path} {s e : Path}
    (hss : '/' ∉ s) (hde : '.' ∉ e) (hse : '/' ∉ e)
    (hL : e ∉ L) :
    defaultOutput L (s ++ ".fq.".data ++ e) = s ++ ".fq.nohuman.fq".data := by
  have hdecomp : s ++ ".fq.".data ++ e = (s ++ ['.', 'f', 'q']) ++ '.' :: e := by
    simp [show (".fq.".data : Path) = ['.', 'f', 'q', '.'] from rfl]
  have hm : s ++ ['.', 'f', 'q'] ≠ [] := by simp
  have hnos : '/' ∉ (s ++ ['.', 'f', 'q']) ++ '.' :: e := by
    apply char_not_mem_append (char_not_mem_append hss (by decide))
    intro h
    rcases List.mem_cons.mp h with h' | h'
    · exact absurd h' (by decide)
    · exact hse h'
  have hfile : fileName ((s ++ ['.', 'f', 'q']) ++ '.' :: e) = (s ++ ['.', 'f', 'q']) ++ '.' :: e :=
    fileName_of_no_slash hnos
  have hext : pathExt ((s ++ ['.', 'f', 'q']) ++ '.' :: e) = some e := by
    unfold pathExt
    rw [hfile, splitName_append_dot hm hde]
  have hstem : pathStem ((s ++ ['.', 'f', 'q']) ++ '.' :: e) = s ++ ['.', 'f', 'q'] := by
    unfold pathStem
    rw [hfile, splitName_append_dot hm hde]
  have hpar : parentDir ((s ++ ['.', 'f', 'q']) ++ '.' :: e) = [] :=
    parentDir_of_no_slash hnos
  rw [hdecomp]
  unfold defaultOutput
  rw [hext]
  dsimp only
  rw [if_neg hL, hpar, hstem, joinPath_nil]
  simp [show (".nohuman.fq".data : Path) = '.' :: "nohuman.fq".data from rfl,
    show (".fq.nohuman.fq".data : Path) = ['.', 'f', 'q'] ++ '.' :: "nohuman.fq".data from rfl]

/-- Default naming for an input `<s>.fq` with no compression extension:
the result is `<s>.nohuman.fq`. -/
theorem defaultOutput_plain {L : List Path} {s : Path}
    (hs : s ≠ []) (hss : '/' ∉ s) (hL : "fq".data ∉ L) :
    defaultOutput L (s ++ ".fq".data) = s ++ ".nohuman.fq".data := by
  have hdecomp : s ++ ".fq".data = s ++ '.' :: ['f', 'q'] := rfl
  have hnos : '/' ∉ s ++ '.' :: ['f', 'q'] :=
    char_not_mem_append hss (by decide)
  have hfile : fileName (s ++ '.' :: ['f', 'q']) = s ++ '.' :: ['f', 'q'] :=
    fileName_of_no_slash hnos
  have hext : pathExt (s ++ '.' :: ['f', 'q']) = some ['f', 'q'] := by
    unfold pathExt
    rw [hfile, splitName_append_dot hs (by decide)]
  have hstem : pathStem (s ++ '.' :: ['f', 'q']) = s := by
    unfold pathStem
    rw [hfile, splitName_append_dot hs (by decide)]
  have hpar : parentDir (s ++ '.' :: ['f', 'q']) = [] :=
    parentDir_of_no_slash hnos
  rw [hdecomp]
  unfold defaultOutput
  rw [hext]
  dsimp only
  rw [if_neg (by simpa [show ("fq".data : Path) = ['f', 'q'] from rfl] using hL),
    hpar, hstem, joinPath_nil]

/-! Reduction lemmas for `run`, shared by several claim proofs. -/

/-- A run whose early checks all pass proceeds to the pipeline proper. -/
theorem run_eq_pipelineStage {a : Args} {e : Env} {ins : List Path}
    (h1 : a.out1 = none) (h2 : a.out2 = none) (hc : a.check = false)
    (hd : a.download = false) (hdb : e.fileExists a.database = true)
    (hdep : e.depsOk = true) (hin : a.input = some ins) :
    run a e = pipelineStage a e ins := by
  unfold run
  simp [explicitCollision, outExistsBlocked, h1, h2, hc, hd, hdb, hdep, hin]

/-- The exact effect trace of a successful single-end run on one input
requiring staging, with the compression thread count left unset. -/
theorem pipelineStage_single_staged {a : Args} {e : Env} {p d : Path}
    (hstage : classifyExt (pathExtD p) = .requiresStaging)
    (hct : a.compressionThreads = none) (hdec : e.decompressOk = true)
    (hdb : e.dbValid = some d) (hsp : e.spawnOk = true)
    (hlog : a.kraken2Log = none) (hstats : a.stats = none)
    (hout1 : a.out1 = none) (hw : e.writeOutputOk = true) :
    pipelineStage a e [p] =
      ([Effect.tempFile (e.stagingTemp 0),
        Effect.decompress [p] [e.stagingTemp 0] 1,
        Effect.tempFile e.krakenTemp,
        Effect.workspaceDir e.workspace,
        Effect.invoke (buildKrakenCmd a.threads d e.krakenTemp false
          (unclassifiedTemplate e.workspace false) [e.stagingTemp 0]),
        Effect.outputWrite (defaultOutput singleExts p) a.threads,
        Effect.cleanup], none) := by
  unfold pipelineStage planInputs planInputsAux
  rw [hstage]
  simp [seqE, logStage, statsStage, outputStage, planInputsAux,
    hct, hdec, hdb, hsp, hlog, hstats, hout1, hw]

/-- A run with more than two inputs fails with the input-count error after
the temporary classifier output file is created, and performs no workspace
creation, no invocation, no stats write and no output write. -/
theorem pipelineStage_too_many {a : Args} {e : Env} {ins : List Path} {d : Path}
    (hdec : e.decompressOk = true) (hdb : e.dbValid = some d)
    (hlen : ins.length > 2) :
    (pipelineStage a e ins).2 = some PipelineError.inputCountExceeded ∧
    Effect.tempFile e.krakenTemp ∈ (pipelineStage a e ins).1 ∧
    (∀ w, Effect.workspaceDir w ∉ (pipelineStage a e ins).1) ∧
    (∀ v, Effect.invoke v ∉ (pipelineStage a e ins).1) ∧
    (∀ q ct, Effect.outputWrite q ct ∉ (pipelineStage a e ins).1) ∧
    (∀ sp st, Effect.statsWrite sp st ∉ (pipelineStage a e ins).1) := by
  unfold pipelineStage
  simp only [hdec, hdb]
  split <;> simp [seqE, hlen]

/-- A successful single-end run writes its output to the explicitly
supplied first output path, or to the single-end default when none was
supplied. -/
theorem pipelineStage_single_ok {a : Args} {e : Env} {p d : Path}
    (hct : a.compressionThreads = none) (hdec : e.decompressOk = true)
    (hdb : e.dbValid = some d) (hsp : e.spawnOk = true)
    (hlog : a.kraken2Log = none) (hstats : a.stats = none)
    (hout1 : a.out1 = none) (hw : e.writeOutputOk = true) :
    (pipelineStage a e [p]).2 = none ∧
    Effect.outputWrite (defaultOutput singleExts p) a.threads ∈ (pipelineStage a e [p]).1 := by
  unfold pipelineStage planInputs
  cases hcl : classifyExt (pathExtD p) <;>
    simp [planInputsAux, hcl, seqE, logStage, statsStage, outputStage,
      hct, hdec, hdb, hsp, hlog, hstats, hout1, hw]

/-- Any run of at most two inputs that reaches the pipeline records the
classifier invocation with the deterministically built argument vector. -/
theorem pipelineStage_invoke {a : Args} {e : Env} {ins : List Path} {d : Path}
    (hdec : e.decompressOk = true) (hdb : e.dbValid = some d)
    (hlen : ¬ins.length > 2) :
    Effect.invoke (buildKrakenCmd a.threads d e.krakenTemp (decide (ins.length = 2))
      (unclassifiedTemplate e.workspace (decide (ins.length = 2)))
      (planInputs e.stagingTemp ins).1) ∈ (pipelineStage a e ins).1 := by
  unfold pipelineStage
  simp only [hdec, hdb]
  split <;> simp [seqE, hlen] <;> split <;> simp

/-- The outcome of a run that reaches invocation but fails to spawn the
classifier: abort with the spawn error, no stats write, no output write. -/
theorem pipelineStage_spawn_fail {a : Args} {e : Env} {ins : List Path} {d : Path}
    (hdec : e.decompressOk = true) (hdb : e.dbValid = some d)
    (hlen : ¬ins.length > 2) (hsp : e.spawnOk = false) :
    (pipelineStage a e ins).2 = some PipelineError.spawnFailure ∧
    (∀ sp st, Effect.statsWrite sp st ∉ (pipelineStage a e ins).1) ∧
    (∀ q ct, Effect.outputWrite q ct ∉ (pipelineStage a e ins).1) := by
  unfold pipelineStage
  simp only [hdec, hdb]
  split <;> simp [seqE, hlen, hsp]

/-! Claim theorems. -/

/-- C1 counterexample.  The claim says a non-zero classifier exit status
aborts the run with no stats written and no output files produced.  On a
single-end run with a stats file requested, environment exit code 1 (and
every downstream call succeeding, as happens when the classifier writes
its report and output files but exits non-zero), the run nevertheless
succeeds, writes the stats file and writes the output file: `main` never
inspects `kraken_run.status`. -/
theorem c1_nonzero_exit_counterexample :
    (run { baseArgs with stats := some statsJsonPath } { baseEnv with exitCode := 1 }).2 = none ∧
    ({ baseEnv with exitCode := 1 } : Env).exitCode ≠ 0 ∧
    ((run { baseArgs with stats := some statsJsonPath } { baseEnv with exitCode := 1 }).1.any
      Effect.isStatsWrite) = true ∧
    ((run { baseArgs with stats := some statsJsonPath } { baseEnv with exitCode := 1 }).1.any
      Effect.isOutputWrite) = true := by
  decide

/-- C1 amended.  The classifier's exit status is never examined: the run's
effects and result are identical for every exit code.  Only a failure to
spawn the process aborts the pipeline at the invocation step, and in that
case no stats and no outputs are written. -/
theorem c1_exit_status_ignored :
    (∀ (a : Args) (e : Env) (c1 c2 : Nat),
      run a { e with exitCode := c1 } = run a { e with exitCode := c2 }) ∧
    (∀ (a : Args) (e : Env) (ins : List Path) (d : Path),
      a.out1 = none → a.out2 = none → a.check = false → a.download = false →
      e.fileExists a.database = true → e.depsOk = true → a.input = some ins →
      e.decompressOk = true → e.dbValid = some d → ¬ins.length > 2 →
      e.spawnOk = false →
      (run a e).2 = some PipelineError.spawnFailure ∧
      (∀ sp st, Effect.statsWrite sp st ∉ (run a e).1) ∧
      (∀ q ct, Effect.outputWrite q ct ∉ (run a e).1)) := by
  constructor
  · intro a e c1 c2
    rfl
  · intro a e ins d h1 h2 hc hd hdb hdep hin hdec hdbv hlen hsp
    rw [run_eq_pipelineStage h1 h2 hc hd hdb hdep hin]
    exact pipelineStage_spawn_fail hdec hdbv hlen hsp

/-- Witness for C1 amended: both parts applied at concrete runs. -/
theorem c1_exit_status_ignored_witness :
    (run baseArgs { baseEnv with exitCode := 7 } = run baseArgs { baseEnv with exitCode := 0 }) ∧
    ((run baseArgs { baseEnv with spawnOk := false }).2 = some PipelineError.spawnFailure ∧
      (∀ sp st, Effect.statsWrite sp st ∉ (run baseArgs { baseEnv with spawnOk := false }).1) ∧
      (∀ q ct, Effect.outputWrite q ct ∉ (run baseArgs { baseEnv with spawnOk := false }).1)) :=
  ⟨c1_exit_status_ignored.1 baseArgs baseEnv 7 0,
    c1_exit_status_ignored.2 baseArgs { baseEnv with spawnOk := false }
      [sampleFqPath] dbPath rfl rfl rfl rfl rfl rfl rfl rfl rfl (by decide) rfl⟩

/-- C2 counterexample.  The claim says any paired run whose two resolved
output paths are equal fails with the collision error before invocation.
On a paired run of `sample.fq` with itself and no explicit outputs, both
computed defaults are `sample.nohuman.fq`, yet the run succeeds, the
classifier is invoked, and both output writes go to the same path: the
collision check of `main` lines 164-169 only compares explicitly supplied
outputs. -/
theorem c2_default_collision_counterexample :
    (run { baseArgs with input := some [sampleFqPath, sampleFqPath] } baseEnv).2 = none ∧
    ((run { baseArgs with input := some [sampleFqPath, sampleFqPath] } baseEnv).1.any
      Effect.isInvoke) = true ∧
    outputDests (run { baseArgs with input := some [sampleFqPath, sampleFqPath] } baseEnv).1 =
      [sampleNohumanFqPath, sampleNohumanFqPath] := by
  decide

/-- C2 amended.  The collision check fires exactly when both output paths
are supplied explicitly and are equal; then the run aborts immediately
with the collision error, before any effect, so the classifier is never
invoked.  Equal computed default paths are not detected. -/
theorem c2_collision_explicit_only (a : Args) (e : Env) (p : Path)
    (h1 : a.out1 = some p) (h2 : a.out2 = some p) :
    run a e = ([], some PipelineError.outputCollision) := by
  unfold run
  rw [show explicitCollision a = true from by unfold explicitCollision; rw [h1, h2]; simp]
  simp

/-- Witness for C2 amended: two identical explicit outputs abort the run. -/
theorem c2_collision_explicit_only_witness :
    run { baseArgs with out1 := some outFqPath, out2 := some outFqPath } baseEnv =
      ([], some PipelineError.outputCollision) :=
  c2_collision_explicit_only _ baseEnv outFqPath rfl rfl

/-- C3 counterexample.  The claim says a run with more than two inputs
fails before any temporary file is created.  On a run with three
uncompressed inputs the failure is indeed the input-count error, but the
temporary classifier output file has already been created (`main` line 297
precedes the count check of line 313). -/
theorem c3_temp_before_count_counterexample :
    (run { baseArgs with input := some threeInputs } baseEnv).2 =
      some PipelineError.inputCountExceeded ∧
    Effect.tempFile krakenTmpPath ∈ (run { baseArgs with input := some threeInputs } baseEnv).1 := by
  decide

/-- C3 amended.  A run with more than two inputs fails with the
input-count error, with no workspace directory, no invocation, no output
write and no stats write — but only after the staging temporaries (for
inputs that need staging) and the temporary classifier output file have
been created. -/
theorem c3_input_count_after_temps (a : Args) (e : Env) (ins : List Path) (d : Path)
    (h1 : a.out1 = none) (h2 : a.out2 = none) (hc : a.check = false)
    (hd : a.download = false) (hdb : e.fileExists a.database = true)
    (hdep : e.depsOk = true) (hin : a.input = some ins)
    (hdec : e.decompressOk = true) (hdbv : e.dbValid = some d)
    (hlen : ins.length > 2) :
    (run a e).2 = some PipelineError.inputCountExceeded ∧
    Effect.tempFile e.krakenTemp ∈ (run a e).1 ∧
    (∀ w, Effect.workspaceDir w ∉ (run a e).1) ∧
    (∀ v, Effect.invoke v ∉ (run a e).1) ∧
    (∀ q ct, Effect.outputWrite q ct ∉ (run a e).1) ∧
    (∀ sp st, Effect.statsWrite sp st ∉ (run a e).1) := by
  rw [run_eq_pipelineStage h1 h2 hc hd hdb hdep hin]
  exact pipelineStage_too_many hdec hdbv hlen

/-- Witness for C3 amended, at the concrete three-input run. -/
theorem c3_input_count_after_temps_witness :
    (run { baseArgs with input := some threeInputs } baseEnv).2 =
      some PipelineError.inputCountExceeded ∧
    Effect.tempFile baseEnv.krakenTemp ∈ (run { baseArgs with input := some threeInputs } baseEnv).1 ∧
    (∀ w, Effect.workspaceDir w ∉ (run { baseArgs with input := some threeInputs } baseEnv).1) ∧
    (∀ v, Effect.invoke v ∉ (run { baseArgs with input := some threeInputs } baseEnv).1) ∧
    (∀ q ct, Effect.outputWrite q ct ∉ (run { baseArgs with input := some threeInputs } baseEnv).1) ∧
    (∀ sp st, Effect.statsWrite sp st ∉ (run { baseArgs with input := some threeInputs } baseEnv).1) :=
  c3_input_count_after_temps { baseArgs with input := some threeInputs } baseEnv
    threeInputs dbPath rfl rfl rfl rfl rfl rfl rfl rfl rfl (by decide)

/-- C4 counterexample.  The claim says the staged decompression output and
the classifier's raw combined output file are allocated inside the
workspace temporary directory.  On a single-end run with a `.zst` input,
both are system-temporary-directory paths, not paths inside the workspace:
`main` lines 266 and 297 use the tempfile library's default location, and
the workspace is only created afterwards at line 320. -/
theorem c4_temps_not_in_workspace_counterexample :
    Effect.tempFile stagedTmpPath ∈
      (run { baseArgs with input := some [sampleFqZstPath] } baseEnv).1 ∧
    Effect.tempFile krakenTmpPath ∈
      (run { baseArgs with input := some [sampleFqZstPath] } baseEnv).1 ∧
    underDir workspacePath stagedTmpPath = false ∧
    underDir workspacePath krakenTmpPath = false := by
  decide

/-- C4 amended.  The staged decompression output and the raw classifier
output file are temporaries allocated by the tempfile library before the
workspace directory is created (so they are not inside it); of the
intermediate artifacts, only the unclassified-read output template passed
via `--unclassified-out` is a path inside the workspace.  The theorem
exhibits the full effect trace: both temporary files precede the workspace
creation, and the invocation receives `e.krakenTemp` as `--output` and a
workspace-internal template. -/
theorem c4_workspace_holds_only_unclassified (a : Args) (e : Env) (p d : Path)
    (h1 : a.out1 = none) (h2 : a.out2 = none) (hc : a.check = false)
    (hd : a.download = false) (hdb : e.fileExists a.database = true)
    (hdep : e.depsOk = true) (hin : a.input = some [p])
    (hstage : classifyExt (pathExtD p) = .requiresStaging)
    (hct : a.compressionThreads = none) (hdec : e.decompressOk = true)
    (hdbv : e.dbValid = some d) (hsp : e.spawnOk = true)
    (hlog : a.kraken2Log = none) (hstats : a.stats = none)
    (hw : e.writeOutputOk = true) :
    run a e =
      ([Effect.tempFile (e.stagingTemp 0),
        Effect.decompress [p] [e.stagingTemp 0] 1,
        Effect.tempFile e.krakenTemp,
        Effect.workspaceDir e.workspace,
        Effect.invoke (buildKrakenCmd a.threads d e.krakenTemp false
          (unclassifiedTemplate e.workspace false) [e.stagingTemp 0]),
        Effect.outputWrite (defaultOutput singleExts p) a.threads,
        Effect.cleanup], none) := by
  rw [run_eq_pipelineStage h1 h2 hc hd hdb hdep hin]
  exact pipelineStage_single_staged hstage hct hdec hdbv hsp hlog hstats h1 hw

/-- Witness for C4 amended, at the concrete `.zst` run. -/
theorem c4_workspace_holds_only_unclassified_witness :
    run { baseArgs with input := some [sampleFqZstPath] } baseEnv =
      ([Effect.tempFile stagedTmpPath,
        Effect.decompress [sampleFqZstPath] [stagedTmpPath] 1,
        Effect.tempFile krakenTmpPath,
        Effect.workspaceDir workspacePath,
        Effect.invoke (buildKrakenCmd 1 dbPath krakenTmpPath false
          (unclassifiedTemplate workspacePath false) [stagedTmpPath]),
        Effect.outputWrite (defaultOutput singleExts sampleFqZstPath) 1,
        Effect.cleanup], none) :=
  c4_workspace_holds_only_unclassified { baseArgs with input := some [sampleFqZstPath] }
    baseEnv sampleFqZstPath dbPath rfl rfl rfl rfl rfl rfl rfl (by decide) rfl rfl rfl
    rfl rfl rfl rfl

/-- C5 counterexample.  The claim says every input ending in a supported
compression extension gets the default `<stem>.nohuman.fq.<ext>`.  For the
single-end input `sample.fq.bgz` the run writes its output to
`sample.fq.nohuman.fq` instead of the claimed `sample.nohuman.fq.bgz`:
the single-end branch of `main` (line 432) omits `bgz` (and `lzma`,
`zstd`) from its recognized list. -/
theorem c5_single_bgz_counterexample :
    outputDests (run { baseArgs with input := some [sampleFqBgzPath] } baseEnv).1 =
      [sampleFqNohumanFqPath] ∧
    sampleFqNohumanFqPath ≠ sampleNohumanFqBgzPath := by
  decide

/-- C5 amended.  Default naming appends `.nohuman.fq.<ext>` only for
extensions in the branch's recognized list, and the three branches
recognize different lists: single-end `{gz, bz2, xz, zst}`, paired first
input `{gz, bz2, xz, lzma, zst, zstd}`, paired second input
`{gz, bgz, bz2, xz, lzma, zst, zstd}`.  An extension outside the branch's
list (such as `bgz` single-end) falls through to `<file-stem>.nohuman.fq`
where the stem still contains the compression extension's preceding
segment. -/
theorem c5_default_naming_by_position :
    (∀ (L : List Path) (s e : Path), s ≠ [] → '/' ∉ s → '.' ∉ e → '/' ∉ e →
      (e ∈ L → defaultOutput L (s ++ ".fq.".data ++ e) = s ++ ".nohuman.fq.".data ++ e) ∧
      (e ∉ L → defaultOutput L (s ++ ".fq.".data ++ e) = s ++ ".fq.nohuman.fq".data)) ∧
    (∀ (L : List Path) (s : Path), s ≠ [] → '/' ∉ s → "fq".data ∉ L →
      defaultOutput L (s ++ ".fq".data) = s ++ ".nohuman.fq".data) ∧
    gzExt ∈ singleExts ∧ "bz2".data ∈ singleExts ∧ "xz".data ∈ singleExts ∧
    "zst".data ∈ singleExts ∧
    bgzExt ∉ singleExts ∧ "lzma".data ∉ singleExts ∧ "zstd".data ∉ singleExts ∧
    bgzExt ∉ pairedExts1 ∧ gzExt ∈ pairedExts1 ∧ "bz2".data ∈ pairedExts1 ∧
    "xz".data ∈ pairedExts1 ∧ "lzma".data ∈ pairedExts1 ∧ "zst".data ∈ pairedExts1 ∧
    "zstd".data ∈ pairedExts1 ∧
    bgzExt ∈ pairedExts2 ∧ gzExt ∈ pairedExts2 ∧ "bz2".data ∈ pairedExts2 ∧
    "xz".data ∈ pairedExts2 ∧ "lzma".data ∈ pairedExts2 ∧ "zst".data ∈ pairedExts2 ∧
    "zstd".data ∈ pairedExts2 := by
  refine ⟨?_, ?_, ?_⟩
  · intro L s e hs hss hde hse
    exact ⟨fun hL => defaultOutput_recognized hs hss hde hse hL,
      fun hL => defaultOutput_unrecognized hss hde hse hL⟩
  · intro L s hs hss hfq
    exact defaultOutput_plain hs hss hfq
  · repeat' apply And.intro
    all_goals decide

/-- Witness for C5 amended: the naming rules applied at concrete stems and
extensions for each branch. -/
theorem c5_default_naming_by_position_witness :
    defaultOutput singleExts (samplePath ++ ".fq.".data ++ gzExt) =
      samplePath ++ ".nohuman.fq.".data ++ gzExt ∧
    defaultOutput singleExts (samplePath ++ ".fq.".data ++ bgzExt) =
      samplePath ++ ".fq.nohuman.fq".data ∧
    defaultOutput pairedExts2 (samplePath ++ ".fq.".data ++ bgzExt) =
      samplePath ++ ".nohuman.fq.".data ++ bgzExt ∧
    defaultOutput singleExts (samplePath ++ ".fq".data) =
      samplePath ++ ".nohuman.fq".data :=
  ⟨(c5_default_naming_by_position.1 singleExts samplePath gzExt
      (by decide) (by decide) (by decide) (by decide)).1 (by decide),
    (c5_default_naming_by_position.1 singleExts samplePath bgzExt
      (by decide) (by decide) (by decide) (by decide)).2 (by decide),
    (c5_default_naming_by_position.1 pairedExts2 samplePath bgzExt
      (by decide) (by decide) (by decide) (by decide)).1 (by decide),
    c5_default_naming_by_position.2.1 singleExts samplePath (by decide) (by decide) (by decide)⟩

/-- C6 counterexample.  The claim says an unset compression thread count
defaults to the classifier thread count for both staging decompression and
output recompression.  With four classifier threads and the option unset,
the staging decompression of a `.zst` input runs with one thread
(`main` line 286: `unwrap_or(1)`) while the output write gets four
(`main` line 300: `unwrap_or(args.threads)`). -/
theorem c6_staging_thread_counterexample :
    decompThreadCounts
      (run { baseArgs with input := some [sampleFqZstPath], threads := 4 } baseEnv).1 = [1] ∧
    outputThreadCounts
      (run { baseArgs with input := some [sampleFqZstPath], threads := 4 } baseEnv).1 = [4] ∧
    (1 : Nat) ≠ 4 := by
  decide

/-- C6 amended.  When the compression thread count is unset, staging
decompression always runs with one thread, while output recompression
defaults to the classifier thread count. -/
theorem c6_thread_defaults_differ (a : Args) (e : Env) (p d : Path)
    (h1 : a.out1 = none) (h2 : a.out2 = none) (hc : a.check = false)
    (hd : a.download = false) (hdb : e.fileExists a.database = true)
    (hdep : e.depsOk = true) (hin : a.input = some [p])
    (hstage : classifyExt (pathExtD p) = .requiresStaging)
    (hct : a.compressionThreads = none) (hdec : e.decompressOk = true)
    (hdbv : e.dbValid = some d) (hsp : e.spawnOk = true)
    (hlog : a.kraken2Log = none) (hstats : a.stats = none)
    (hw : e.writeOutputOk = true) :
    Effect.decompress [p] [e.stagingTemp 0] 1 ∈ (run a e).1 ∧
    Effect.outputWrite (defaultOutput singleExts p) a.threads ∈ (run a e).1 := by
  rw [run_eq_pipelineStage h1 h2 hc hd hdb hdep hin,
    pipelineStage_single_staged hstage hct hdec hdbv hsp hlog hstats h1 hw]
  simp

/-- Witness for C6 amended, at the concrete `.zst` run with four threads. -/
theorem c6_thread_defaults_differ_witness :
    Effect.decompress [sampleFqZstPath] [stagedTmpPath] 1 ∈
      (run { baseArgs with input := some [sampleFqZstPath], threads := 4 } baseEnv).1 ∧
    Effect.outputWrite (defaultOutput singleExts sampleFqZstPath) 4 ∈
      (run { baseArgs with input := some [sampleFqZstPath], threads := 4 } baseEnv).1 :=
  c6_thread_defaults_differ
    { baseArgs with input := some [sampleFqZstPath], threads := 4 } baseEnv
    sampleFqZstPath dbPath rfl rfl rfl rfl rfl rfl rfl (by decide) rfl rfl rfl
    rfl rfl rfl rfl

/-- An extension in the staged list classifies as requiring staging. -/
theorem classifyExt_staged {e : Path} (h : e ∈ stagedExts) :
    classifyExt e = .requiresStaging := by
  have hn : e ∉ nativeExts := by
    fin_cases h <;> decide
  unfold classifyExt
  rw [if_neg hn, if_pos h]

/-- An extension outside the staged list never classifies as staging. -/
theorem classifyExt_not_staged {e : Path} (h : e ∉ stagedExts) :
    classifyExt e ≠ .requiresStaging := by
  unfold classifyExt
  by_cases hn : e ∈ nativeExts
  · rw [if_pos hn]
    decide
  · rw [if_neg hn, if_neg h]
    decide

/-- The kraken input list has one entry per input, in input order. -/
theorem planInputsAux_length (alloc : Nat → Path) (ins : List Path) :
    ∀ (k : Nat), (planInputsAux alloc k ins).1.length = ins.length := by
  induction ins with
  | nil => intro k; rfl
  | cons p rest ih =>
    intro k
    unfold planInputsAux
    cases hcl : classifyExt (pathExtD p) <;> simp [hcl, ih]

/-- C7 confirmed.  Format handling is a pure function of the filename
extension: an input whose extension is one of `xz`, `lzma`, `zst`, `zstd`
is replaced in the classifier input list by a freshly allocated staging
temporary and scheduled for decompression; every other input — the
native extensions `gz`, `bz2`, `bgz`, any unknown extension, and no
extension at all — is passed through unchanged, with no error path, and
the classifier input list keeps one entry per input in order. -/
theorem c7_format_detection_table :
    (∀ (alloc : Nat → Path) (ins : List Path),
      (planInputs alloc ins).1.length = ins.length) ∧
    (∀ (alloc : Nat → Path) (k : Nat) (p : Path) (rest : List Path),
      pathExtD p ∈ stagedExts →
      planInputsAux alloc k (p :: rest) =
        (alloc k :: (planInputsAux alloc (k + 1) rest).1,
          p :: (planInputsAux alloc (k + 1) rest).2.1,
          alloc k :: (planInputsAux alloc (k + 1) rest).2.2)) ∧
    (∀ (alloc : Nat → Path) (k : Nat) (p : Path) (rest : List Path),
      pathExtD p ∉ stagedExts →
      planInputsAux alloc k (p :: rest) =
        (p :: (planInputsAux alloc k rest).1,
          (planInputsAux alloc k rest).2.1,
          (planInputsAux alloc k rest).2.2)) ∧
    gzExt ∈ nativeExts ∧ "bz2".data ∈ nativeExts ∧ bgzExt ∈ nativeExts ∧
    gzExt ∉ stagedExts ∧ "bz2".data ∉ stagedExts ∧ bgzExt ∉ stagedExts ∧
    "xz".data ∈ stagedExts ∧ "lzma".data ∈ stagedExts ∧ "zst".data ∈ stagedExts ∧
    "zstd".data ∈ stagedExts ∧
    "fq".data ∉ stagedExts ∧ "fq".data ∉ nativeExts ∧
    ([] : Path) ∉ stagedExts ∧ ([] : Path) ∉ nativeExts := by
  refine ⟨?_, ?_, ?_, ?_⟩
  · intro alloc ins
    exact planInputsAux_length alloc ins 0
  · intro alloc k p rest h
    conv_lhs => rw [planInputsAux]
    rw [classifyExt_staged h]
  · intro alloc k p rest h
    conv_lhs => rw [planInputsAux]
    cases hcl : classifyExt (pathExtD p)
    · rfl
    · rfl
    · exact absurd hcl (classifyExt_not_staged h)
  · repeat' apply And.intro
    all_goals decide

/-- Witness for C7: the staged rule at a `.zst` input, the pass-through
rule at an uncompressed input, and length preservation on a mixed pair. -/
theorem c7_format_detection_table_witness :
    planInputsAux (fun _ => stagedTmpPath) 0 [sampleFqZstPath] =
      (stagedTmpPath :: (planInputsAux (fun _ => stagedTmpPath) 1 []).1,
        sampleFqZstPath :: (planInputsAux (fun _ => stagedTmpPath) 1 []).2.1,
        stagedTmpPath :: (planInputsAux (fun _ => stagedTmpPath) 1 []).2.2) ∧
    planInputsAux (fun _ => stagedTmpPath) 0 [sampleFqPath] =
      (sampleFqPath :: (planInputsAux (fun _ => stagedTmpPath) 0 []).1,
        (planInputsAux (fun _ => stagedTmpPath) 0 []).2.1,
        (planInputsAux (fun _ => stagedTmpPath) 0 []).2.2) ∧
    (planInputs (fun _ => stagedTmpPath) [sampleFqPath, sampleFqZstPath]).1.length = 2 :=
  ⟨c7_format_detection_table.2.1 (fun _ => stagedTmpPath) 0 sampleFqZstPath [] (by decide),
    c7_format_detection_table.2.2.1 (fun _ => stagedTmpPath) 0 sampleFqPath [] (by decide),
    c7_format_detection_table.1 (fun _ => stagedTmpPath) [sampleFqPath, sampleFqZstPath]⟩

/-- The unclassified-output template contains the `#` placeholder exactly
in the paired case, provided the workspace path itself has none. -/
theorem hash_in_template {ws : Path} (h : '#' ∉ ws) (b : Bool) :
    ('#' ∈ unclassifiedTemplate ws b) ↔ b = true := by
  cases b <;> unfold unclassifiedTemplate joinPath <;> split <;>
    simp_all [List.mem_append]

/-- C8 confirmed.  Any run reaching invocation passes the classifier the
argument vector `--threads <n> --db <dir> --output <tmp> [--paired]
--unclassified-out <template>` followed by the per-file input paths of the
plan, with `--paired` present exactly for two inputs; and the template
contains the `#` placeholder exactly in the paired case (when the
workspace path itself contains no `#`). -/
theorem c8_argv_deterministic (a : Args) (e : Env) (ins : List Path) (d : Path)
    (h1 : a.out1 = none) (h2 : a.out2 = none) (hc : a.check = false)
    (hd : a.download = false) (hdb : e.fileExists a.database = true)
    (hdep : e.depsOk = true) (hin : a.input = some ins)
    (hdec : e.decompressOk = true) (hdbv : e.dbValid = some d)
    (hlen : ¬ins.length > 2) :
    (ins.length = 2 →
      Effect.invoke ("--threads".data :: (Nat.repr a.threads).data :: "--db".data :: d ::
        "--output".data :: e.krakenTemp :: "--paired".data :: "--unclassified-out".data ::
        unclassifiedTemplate e.workspace true :: (planInputs e.stagingTemp ins).1) ∈
        (run a e).1) ∧
    (ins.length ≠ 2 →
      Effect.invoke ("--threads".data :: (Nat.repr a.threads).data :: "--db".data :: d ::
        "--output".data :: e.krakenTemp :: "--unclassified-out".data ::
        unclassifiedTemplate e.workspace false :: (planInputs e.stagingTemp ins).1) ∈
        (run a e).1) ∧
    ('#' ∉ e.workspace → ∀ b : Bool,
      ('#' ∈ unclassifiedTemplate e.workspace b) ↔ b = true) := by
  rw [run_eq_pipelineStage h1 h2 hc hd hdb hdep hin]
  refine ⟨?_, ?_, fun hws b => hash_in_template hws b⟩
  · intro hl2
    have hmem := @pipelineStage_invoke a e ins d hdec hdbv hlen
    rw [hl2] at hmem
    simpa [buildKrakenCmd] using hmem
  · intro hne
    have hmem := @pipelineStage_invoke a e ins d hdec hdbv hlen
    rw [decide_eq_false hne] at hmem
    simpa [buildKrakenCmd] using hmem

/-- Witness for C8: the paired argument vector of a concrete two-input
run, the single-end vector of a concrete one-input run, and the placeholder
equivalence at the concrete workspace. -/
theorem c8_argv_deterministic_witness :
    Effect.invoke ("--threads".data :: (Nat.repr 1).data :: "--db".data :: dbPath ::
      "--output".data :: krakenTmpPath :: "--paired".data :: "--unclassified-out".data ::
      unclassifiedTemplate workspacePath true ::
      (planInputs (fun _ => stagedTmpPath) [sampleFqPath, sampleFqPath]).1) ∈
      (run { baseArgs with input := some [sampleFqPath, sampleFqPath] } baseEnv).1 ∧
    Effect.invoke ("--threads".data :: (Nat.repr 1).data :: "--db".data :: dbPath ::
      "--output".data :: krakenTmpPath :: "--unclassified-out".data ::
      unclassifiedTemplate workspacePath false ::
      (planInputs (fun _ => stagedTmpPath) [sampleFqPath]).1) ∈
      (run baseArgs baseEnv).1 ∧
    (('#' ∈ unclassifiedTemplate workspacePath true) ↔ true = true) ∧
    (('#' ∈ unclassifiedTemplate workspacePath false) ↔ false = true) :=
  ⟨(c8_argv_deterministic { baseArgs with input := some [sampleFqPath, sampleFqPath] }
      baseEnv [sampleFqPath, sampleFqPath] dbPath
      rfl rfl rfl rfl rfl rfl rfl rfl rfl (by decide)).1 rfl,
    (c8_argv_deterministic baseArgs baseEnv [sampleFqPath] dbPath
      rfl rfl rfl rfl rfl rfl rfl rfl rfl (by decide)).2.1 (by decide),
    (c8_argv_deterministic baseArgs baseEnv [sampleFqPath] dbPath
      rfl rfl rfl rfl rfl rfl rfl rfl rfl (by decide)).2.2 (by decide) true,
    (c8_argv_deterministic baseArgs baseEnv [sampleFqPath] dbPath
      rfl rfl rfl rfl rfl rfl rfl rfl rfl (by decide)).2.2 (by decide) false⟩

/-- C9, exhibiting the code bug.  When a stats file is requested on a
single-end run with no explicit output, the serialized report records the
hardcoded placeholder `output_1.fq` as its output path, while the output
file is actually written to the computed default `sample.nohuman.fq`
(`main` line 374 versus lines 429-440). -/
theorem c9_stats_placeholder_mismatch :
    statsOutput1Fields (run { baseArgs with stats := some statsJsonPath } baseEnv).1 =
      [outPlaceholder1] ∧
    outputDests (run { baseArgs with stats := some statsJsonPath } baseEnv).1 =
      [sampleNohumanFqPath] ∧
    outPlaceholder1 ≠ sampleNohumanFqPath := by
  decide

/-- C10 confirmed.  The pre-existing-output check applies only to
explicitly supplied output paths: an explicit output that exists blocks the
run (without `--overwrite`) before any effect, while a run with defaulted
outputs succeeds and writes the default destination even when a file
exists at every path of the filesystem. -/
theorem c10_overwrite_check_explicit_only :
    (∀ (a : Args) (e : Env) (p : Path), a.out1 = some p → a.out2 = none →
      e.fileExists p = true → a.overwrite = false →
      run a e = ([], some PipelineError.outputAlreadyExists)) ∧
    (∀ (a : Args) (e : Env) (p d : Path),
      a.out1 = none → a.out2 = none → a.check = false → a.download = false →
      (∀ q, e.fileExists q = true) → e.depsOk = true → a.input = some [p] →
      a.compressionThreads = none → e.decompressOk = true → e.dbValid = some d →
      e.spawnOk = true → a.kraken2Log = none → a.stats = none →
      e.writeOutputOk = true →
      (run a e).2 = none ∧
      Effect.outputWrite (defaultOutput singleExts p) a.threads ∈ (run a e).1) := by
  constructor
  · intro a e p h1 h2 hf hov
    unfold run
    rw [show explicitCollision a = false from by unfold explicitCollision; rw [h1, h2],
      show outExistsBlocked e a a.out1 = true from by
        unfold outExistsBlocked; rw [h1]; simp [hf, hov]]
    simp
  · intro a e p d h1 h2 hc hd hall hdep hin hct hdec hdbv hsp hlog hstats hw
    rw [run_eq_pipelineStage h1 h2 hc hd (hall a.database) hdep hin]
    exact pipelineStage_single_ok hct hdec hdbv hsp hlog hstats h1 hw

/-- Witness for C10: an existing explicit output aborts the concrete run;
the defaulted concrete run (whose environment reports every file as
existing) succeeds and writes the default destination. -/
theorem c10_overwrite_check_explicit_only_witness :
    run { baseArgs with out1 := some outFqPath } baseEnv =
      ([], some PipelineError.outputAlreadyExists) ∧
    ((run baseArgs baseEnv).2 = none ∧
      Effect.outputWrite (defaultOutput singleExts sampleFqPath) 1 ∈ (run baseArgs baseEnv).1) :=
  ⟨c10_overwrite_check_explicit_only.1 { baseArgs with out1 := some outFqPath }
      baseEnv outFqPath rfl rfl rfl rfl,
    c10_overwrite_check_explicit_only.2 baseArgs baseEnv sampleFqPath dbPath
      rfl rfl rfl rfl (fun _ => rfl) rfl rfl rfl rfl rfl rfl rfl rfl rfl⟩

end NoHuman
